import Mathlib

/-!
Verification of the request-lifecycle specification of the `stdweb`
XMLHttpRequest binding (`src/webapi/xml_http_request.rs`).

The source file is a thin binding: the enum `ReadyState`, the integer-code
to `ReadyState` mapping inside `ready_state`, and the arguments the binding
passes to the underlying transport are embedded directly from the source.
The request-lifecycle core itself (RequestHandle state machine, abort
semantics, event application) is described by the specification but is not
present under `src/`; those parts are modelled from the spec, as marked in
the doc comments below.
-/

/-- Embedded from the source (`pub enum ReadyState`, lines 27-38):
the five lifecycle states of a request. -/
inductive ReadyState where
  | Unsent
  | Opened
  | HeadersReceived
  | Loading
  | Done
deriving DecidableEq, Repr

/-- Lifecycle order of the states: Unsent(0) < Opened(1) < HeadersReceived(2)
< Loading(3) < Done(4), the documented integer mapping. -/
def ReadyState.rank : ReadyState → Nat
  | .Unsent => 0
  | .Opened => 1
  | .HeadersReceived => 2
  | .Loading => 3
  | .Done => 4

/-- Embedded from the source (`ready_state`, lines 52-63): the mapping from
the transport-reported integer code to `ReadyState`.  The `unreachable!`
branch of the source (a fatal adapter-contract violation, not a returned
value) is modelled as `none`. -/
def ready_state_of_code (c : Nat) : Option ReadyState :=
  if c = 0 then some .Unsent
  else if c = 1 then some .Opened
  else if c = 2 then some .HeadersReceived
  else if c = 3 then some .Loading
  else if c = 4 then some .Done
  else none

/-- Embedded from the source (`open`, lines 88-92): the argument triple the
binding passes to the underlying transport call
`self.open(method, url, true)`. -/
structure XhrOpenArgs where
  method : String
  url : String
  async : Bool
deriving DecidableEq, Repr

/-- Embedded from the source (`open`, lines 88-92): the binding always
forwards the caller-supplied method and url and hard-codes `true` as the
third (async) argument. -/
def xhr_open_args (method url : String) : XhrOpenArgs :=
  { method := method, url := url, async := true }

/-- Modelled from the spec (§7): the typed error kinds of the core.
`InvalidArgument` stands for the unnamed validation failure of `open`
("Validates method is a non-empty token and URL is non-empty"); the spec
names no kind for it. -/
inductive RequestError where
  | AlreadyOpened
  | NotOpened
  | AlreadySent
  | InvalidTransition
  | InvalidArgument
deriving DecidableEq, Repr

/-- Modelled from the spec (§4.3): the adapter notification events
`{HeadersArrived{status}, DataChunk{bytes}, Complete, Failed{reason},
Aborted}`. -/
inductive Notification where
  | HeadersArrived (status : Nat)
  | DataChunk (bytes : String)
  | Complete
  | Failed (reason : String)
  | Aborted
deriving DecidableEq, Repr

/-- Modelled from the spec (§3): the per-request entity.  The missing code
is the reimplemented `RequestHandle` of the spec; `src/` only holds the thin
binding.  `response_buffer = none` is "no body yet", `some s` is a present
(possibly empty) body; `sent` backs the `AlreadySent` idempotency rule of
`send`; `failed` is the dedicated failure flag of §7. -/
structure RequestHandle where
  state : ReadyState
  method : Option String
  url : Option String
  status : Option Nat
  response_buffer : Option String
  aborted : Bool
  sent : Bool
  failed : Bool
deriving DecidableEq, Repr

/-- Modelled from the spec (§3 Lifecycle): a freshly constructed handle,
state `Unsent`, nothing set. -/
def initHandle : RequestHandle :=
  { state := .Unsent, method := none, url := none, status := none
    response_buffer := none, aborted := false, sent := false, failed := false }

/-- Modelled from the spec (§4.1): `can_transition(from, to)`, with the
aborting context as an explicit flag: true only for Unsent→Opened,
Opened→HeadersReceived, HeadersReceived→Loading, Loading→Done,
HeadersReceived→Done, and any-state→Done when aborting. -/
def can_transition : ReadyState → ReadyState → Bool → Bool
  | _, .Done, true => true
  | .Unsent, .Opened, _ => true
  | .Opened, .HeadersReceived, _ => true
  | .HeadersReceived, .Loading, _ => true
  | .Loading, .Done, _ => true
  | .HeadersReceived, .Done, _ => true
  | _, _, _ => false

/-- Modelled from the spec (§4.1): a requested transition is validated
defensively; any disallowed request fails with `InvalidTransition`. -/
def request_transition (h : RequestHandle) (tgt : ReadyState) (aborting : Bool) :
    Except RequestError RequestHandle :=
  if can_transition h.state tgt aborting then .ok { h with state := tgt }
  else .error .InvalidTransition

/-- Modelled from the spec (§4.2 `open`): valid only when `state == Unsent`,
fails with `AlreadyOpened` otherwise; validates method and url non-empty;
on success sets method/url and transitions to Opened. -/
def open_req (h : RequestHandle) (method url : String) :
    Except RequestError RequestHandle :=
  if h.state = .Unsent then
    if method = "" ∨ url = "" then .error .InvalidArgument
    else .ok { h with state := .Opened, method := some method, url := some url }
  else .error .AlreadyOpened

/-- Modelled from the spec (§4.2 `send`): valid only when `state == Opened`,
fails with `NotOpened` otherwise; a second `send` fails with `AlreadySent`;
on success the state remains Opened until the adapter reports header
arrival (§2). -/
def send_req (h : RequestHandle) (_body : Option String) :
    Except RequestError RequestHandle :=
  if h.state = .Opened then
    if h.sent then .error .AlreadySent
    else .ok { h with sent := true }
  else .error .NotOpened

/-- Modelled from the spec (§4.2 `abort`, resolved post-condition, §8
Scenario C/D, §9): no-op if already Done; otherwise sets the sticky
`aborted` flag, forces state to Done, leaves `status` untouched if already
set and resets it to the sentinel 0 otherwise. -/
def RequestHandle.abort (h : RequestHandle) : RequestHandle :=
  if h.state = .Done then h
  else
    { h with state := .Done, aborted := true
             status := match h.status with
                       | some s => some s
                       | none => some 0 }

/-- Modelled from the spec (§4.3, §4.4): application of one adapter
notification to a handle.  Notifications for a handle already Done or
aborted are silently dropped (§4.4); a notification requesting a transition
the rules of §4.1 disallow is the fatal `InvalidTransition` (§4.1);
`Failed` moves the handle to Done with the failure flag set (§7);
`DataChunk` accumulates into the response buffer, creating it on first
arrival. -/
def applyNotification (h : RequestHandle) (n : Notification) :
    Except RequestError RequestHandle :=
  if h.state = .Done ∨ h.aborted then .ok h
  else
    match n with
    | .HeadersArrived s =>
        if h.state = .Opened then
          .ok { h with state := .HeadersReceived, status := some s }
        else .error .InvalidTransition
    | .DataChunk bytes =>
        match h.state with
        | .HeadersReceived =>
            .ok { h with state := .Loading
                         response_buffer := some (h.response_buffer.getD "" ++ bytes) }
        | .Loading =>
            .ok { h with response_buffer := some (h.response_buffer.getD "" ++ bytes) }
        | _ => .error .InvalidTransition
    | .Complete =>
        if h.state = .HeadersReceived ∨ h.state = .Loading then
          .ok { h with state := .Done }
        else .error .InvalidTransition
    | .Failed _ => .ok { h with state := .Done, failed := true }
    | .Aborted => .ok h

/-- Modelled from the spec (§4.2 accessor): `ready_state()` is a pure read
of the lifecycle position. -/
def RequestHandle.ready_state (h : RequestHandle) : ReadyState := h.state

/-- Modelled from the spec (§4.2 accessor): `response_text()` returns the
accumulated buffer content, `none` if no body has arrived yet. -/
def RequestHandle.response_text (h : RequestHandle) : Option String :=
  h.response_buffer

/-- A step applied to a handle: one of the caller operations or one adapter
notification, covering every mutation of the spec's lifecycle. -/
inductive Step where
  | doOpen (method url : String)
  | doSend (body : Option String)
  | doAbort
  | notify (n : Notification)
deriving DecidableEq, Repr

/-- A fallible operation leaves the handle unchanged on error (the typed
error returns to the caller, §7). -/
def orKeep (h : RequestHandle) : Except RequestError RequestHandle → RequestHandle
  | .ok h1 => h1
  | .error _ => h

/-- One step of the lifecycle: operations and notifications, failed
operations leaving the handle unchanged. -/
def applyStep (h : RequestHandle) : Step → RequestHandle
  | .doOpen m u => orKeep h (open_req h m u)
  | .doSend b => orKeep h (send_req h b)
  | .doAbort => h.abort
  | .notify n => orKeep h (applyNotification h n)

/-- Running a sequence of steps in arrival order (§4.4: strictly in arrival
order per handle). -/
def runSteps (h : RequestHandle) (steps : List Step) : RequestHandle :=
  steps.foldl applyStep h

/-- Running a sequence of adapter notifications only. -/
def runNotifs (h : RequestHandle) (ns : List Notification) : RequestHandle :=
  ns.foldl (fun g n => orKeep g (applyNotification g n)) h

/-- The handles reachable from a freshly constructed handle by any sequence
of operations and notifications. -/
inductive Reachable : RequestHandle → Prop where
  | init : Reachable initHandle
  | step {h : RequestHandle} (s : Step) : Reachable h → Reachable (applyStep h s)

/-! ### Helper lemmas shared by the claim theorems -/

/-- `abort` always lands in `Done`. -/
theorem abort_state_done (h : RequestHandle) : h.abort.state = .Done := by
  unfold RequestHandle.abort
  split
  · assumption
  · rfl

/-- Notifications to a `Done` handle are silently dropped. -/
theorem applyNotification_done (h : RequestHandle) (n : Notification)
    (hd : h.state = .Done) : applyNotification h n = .ok h := by
  unfold applyNotification
  rw [if_pos (Or.inl hd)]

/-- A `Done` handle is frozen: no step changes it at all. -/
theorem applyStep_done (h : RequestHandle) (s : Step) (hd : h.state = .Done) :
    applyStep h s = h := by
  cases s with
  | doOpen m u =>
      simp [applyStep, open_req, hd, orKeep]
  | doSend b =>
      simp [applyStep, send_req, hd, orKeep]
  | doAbort =>
      simp [applyStep, RequestHandle.abort, hd]
  | notify n =>
      simp [applyStep, applyNotification_done h n hd, orKeep]

/-- Notification sequences leave a `Done` handle unchanged. -/
theorem runNotifs_done (h : RequestHandle) (ns : List Notification)
    (hd : h.state = .Done) : runNotifs h ns = h := by
  induction ns with
  | nil => rfl
  | cons n t ih =>
      show runNotifs (orKeep h (applyNotification h n)) t = h
      rw [applyNotification_done h n hd]
      exact ih

/-- Every state has rank at most 4 (the rank of `Done`). -/
theorem rank_le_four (r : ReadyState) : r.rank ≤ 4 := by
  cases r <;> decide

/-- Lifecycle invariant maintained by every reachable handle: a set sticky
abort flag means the state is `Done`, and before `HeadersReceived` no
status is set. -/
def LifecycleInv (h : RequestHandle) : Prop :=
  (h.aborted = true → h.state = .Done) ∧
  ((h.state = .Unsent ∨ h.state = .Opened) → h.status = none)

/-- Every step preserves the lifecycle invariant. -/
theorem inv_step (h : RequestHandle) (s : Step) (hi : LifecycleInv h) :
    LifecycleInv (applyStep h s) := by
  obtain ⟨h1, h2⟩ := hi
  cases s with
  | doOpen m u =>
      by_cases hs : h.state = .Unsent
      · have hab : h.aborted = false := by
          cases hA : h.aborted with
          | false => rfl
          | true => exact absurd (h1 hA) (by simp [hs])
        have hst : h.status = none := h2 (Or.inl hs)
        by_cases hv : m = "" ∨ u = ""
        · simp only [applyStep, open_req, if_pos hs, if_pos hv, orKeep]
          exact ⟨h1, h2⟩
        · simp only [applyStep, open_req, if_pos hs, if_neg hv, orKeep]
          exact ⟨by simp [hab], by simp [hst]⟩
      · simp only [applyStep, open_req, if_neg hs, orKeep]
        exact ⟨h1, h2⟩
  | doSend b =>
      by_cases hs : h.state = .Opened
      · by_cases hq : h.sent
        · simp only [applyStep, send_req, if_pos hs, if_pos hq, orKeep]
          exact ⟨h1, h2⟩
        · simp only [applyStep, send_req, if_pos hs, if_neg hq, orKeep]
          exact ⟨h1, h2⟩
      · simp only [applyStep, send_req, if_neg hs, orKeep]
        exact ⟨h1, h2⟩
  | doAbort =>
      show LifecycleInv h.abort
      unfold RequestHandle.abort
      split
      · exact ⟨h1, h2⟩
      · exact ⟨fun _ => rfl, by simp⟩
  | notify n =>
      show LifecycleInv (orKeep h (applyNotification h n))
      unfold applyNotification
      by_cases hg : h.state = .Done ∨ h.aborted = true
      · rw [if_pos (by simpa using hg)]
        exact ⟨h1, h2⟩
      · rw [if_neg (by simpa using hg)]
        cases n with
        | HeadersArrived s =>
            by_cases hs : h.state = .Opened
            · simp only [if_pos hs, orKeep]
              push_neg at hg
              exact ⟨by simp [hg.2], by simp⟩
            · simp only [if_neg hs, orKeep]
              exact ⟨h1, h2⟩
        | DataChunk bytes =>
            push_neg at hg
            cases hs : h.state with
            | HeadersReceived =>
                simp only [orKeep]
                exact ⟨by simp [hg.2], by simp⟩
            | Loading =>
                simp only [orKeep]
                exact ⟨by simp [hg.2], by simp [hs]⟩
            | Unsent => simp only [orKeep]; exact ⟨h1, h2⟩
            | Opened => simp only [orKeep]; exact ⟨h1, h2⟩
            | Done => simp only [orKeep]; exact ⟨h1, h2⟩
        | Complete =>
            by_cases hs : h.state = .HeadersReceived ∨ h.state = .Loading
            · simp only [if_pos hs, orKeep]
              exact ⟨fun _ => rfl, by simp⟩
            · simp only [if_neg hs, orKeep]
              exact ⟨h1, h2⟩
        | Failed reason =>
            simp only [orKeep]
            exact ⟨fun _ => rfl, by simp⟩
        | Aborted =>
            simp only [orKeep]
            exact ⟨h1, h2⟩

/-- Every reachable handle satisfies the lifecycle invariant. -/
theorem reachable_inv {h : RequestHandle} (hr : Reachable h) : LifecycleInv h := by
  induction hr with
  | init => exact ⟨by simp [initHandle], by simp [initHandle]⟩
  | step s _ ih => exact inv_step _ s ih

/-- Single-step rank monotonicity: no step ever lowers the lifecycle rank. -/
theorem rank_step (h : RequestHandle) (s : Step) :
    h.state.rank ≤ (applyStep h s).state.rank := by
  cases s with
  | doOpen m u =>
      by_cases hs : h.state = .Unsent
      · by_cases hv : m = "" ∨ u = ""
        · simp [applyStep, open_req, hs, hv, orKeep]
        · simp [applyStep, open_req, hs, hv, orKeep, ReadyState.rank]
      · simp [applyStep, open_req, hs, orKeep]
  | doSend b =>
      by_cases hs : h.state = .Opened
      · by_cases hq : h.sent = true
        · simp [applyStep, send_req, hs, hq, orKeep]
        · simp [applyStep, send_req, hs, hq, orKeep]
      · simp [applyStep, send_req, hs, orKeep]
  | doAbort =>
      show h.state.rank ≤ h.abort.state.rank
      rw [abort_state_done h]
      exact rank_le_four h.state
  | notify n =>
      show h.state.rank ≤ (orKeep h (applyNotification h n)).state.rank
      unfold applyNotification
      by_cases hg : h.state = .Done ∨ h.aborted = true
      · rw [if_pos (by simpa using hg)]
        simp [orKeep]
      · rw [if_neg (by simpa using hg)]
        cases n with
        | HeadersArrived s =>
            by_cases hs : h.state = .Opened
            · simp [hs, orKeep, ReadyState.rank]
            · simp [hs, orKeep]
        | DataChunk bytes =>
            cases hs : h.state with
            | HeadersReceived => simp [orKeep, hs, ReadyState.rank]
            | Loading => simp [orKeep, hs]
            | Unsent => simp [orKeep, hs]
            | Opened => simp [orKeep, hs]
            | Done => simp [orKeep, hs]
        | Complete =>
            by_cases hs : h.state = .HeadersReceived ∨ h.state = .Loading
            · simp only [if_pos hs, orKeep]
              exact rank_le_four h.state
            · simp [hs, orKeep]
        | Failed reason =>
            simp only [orKeep]
            exact rank_le_four h.state
        | Aborted => simp [orKeep]

/-- Rank monotonicity over whole step sequences. -/
theorem rank_runSteps (steps : List Step) (h : RequestHandle) :
    h.state.rank ≤ (runSteps h steps).state.rank := by
  induction steps generalizing h with
  | nil => exact Nat.le_refl _
  | cons s t ih =>
      exact Nat.le_trans (rank_step h s) (ih (applyStep h s))

/-- Only a `DataChunk` notification ever creates the response buffer. -/
theorem buffer_none_step (h : RequestHandle) (s : Step)
    (hb : h.response_buffer = none)
    (hnc : ∀ b, s ≠ Step.notify (.DataChunk b)) :
    (applyStep h s).response_buffer = none := by
  cases s with
  | doOpen m u =>
      by_cases hs : h.state = .Unsent
      · by_cases hv : m = "" ∨ u = ""
        · simpa [applyStep, open_req, hs, hv, orKeep] using hb
        · simpa [applyStep, open_req, hs, hv, orKeep] using hb
      · simpa [applyStep, open_req, hs, orKeep] using hb
  | doSend b =>
      by_cases hs : h.state = .Opened
      · by_cases hq : h.sent = true
        · simpa [applyStep, send_req, hs, hq, orKeep] using hb
        · simpa [applyStep, send_req, hs, hq, orKeep] using hb
      · simpa [applyStep, send_req, hs, orKeep] using hb
  | doAbort =>
      show (RequestHandle.abort h).response_buffer = none
      unfold RequestHandle.abort
      split
      · exact hb
      · simpa using hb
  | notify n =>
      show (orKeep h (applyNotification h n)).response_buffer = none
      unfold applyNotification
      by_cases hg : h.state = .Done ∨ h.aborted = true
      · rw [if_pos (by simpa using hg)]; exact hb
      · rw [if_neg (by simpa using hg)]
        cases n with
        | HeadersArrived s =>
            by_cases hs : h.state = .Opened
            · simpa [hs, orKeep] using hb
            · simpa [hs, orKeep] using hb
        | DataChunk bytes => exact absurd rfl (hnc bytes)
        | Complete =>
            by_cases hs : h.state = .HeadersReceived ∨ h.state = .Loading
            · simpa [hs, orKeep] using hb
            · simpa [hs, orKeep] using hb
        | Failed reason => simpa [orKeep] using hb
        | Aborted => simpa [orKeep] using hb

/-- With no `DataChunk` in the sequence, the buffer stays absent. -/
theorem buffer_none_run (steps : List Step) (h : RequestHandle)
    (hb : h.response_buffer = none)
    (hnc : ∀ b, Step.notify (.DataChunk b) ∉ steps) :
    (runSteps h steps).response_buffer = none := by
  induction steps generalizing h with
  | nil => exact hb
  | cons s t ih =>
      have hs1 : ∀ b, s ≠ Step.notify (.DataChunk b) := by
        intro b he
        exact hnc b (by rw [he]; exact List.mem_cons_self _ _)
      have ht1 : ∀ b, Step.notify (.DataChunk b) ∉ t := by
        intro b hm
        exact hnc b (List.mem_cons_of_mem _ hm)
      exact ih (applyStep h s) (buffer_none_step h s hb hs1) ht1

/-- Once the buffer is present, every step extends it on the right
(possibly by nothing). -/
theorem buffer_extend_step (h : RequestHandle) (b : String)
    (hb : h.response_buffer = some b) (s : Step) :
    ∃ t, (applyStep h s).response_buffer = some (b ++ t) := by
  cases s with
  | doOpen m u =>
      refine ⟨"", ?_⟩
      rw [String.append_empty]
      by_cases hs : h.state = .Unsent
      · by_cases hv : m = "" ∨ u = ""
        · simpa [applyStep, open_req, hs, hv, orKeep] using hb
        · simpa [applyStep, open_req, hs, hv, orKeep] using hb
      · simpa [applyStep, open_req, hs, orKeep] using hb
  | doSend bd =>
      refine ⟨"", ?_⟩
      rw [String.append_empty]
      by_cases hs : h.state = .Opened
      · by_cases hq : h.sent = true
        · simpa [applyStep, send_req, hs, hq, orKeep] using hb
        · simpa [applyStep, send_req, hs, hq, orKeep] using hb
      · simpa [applyStep, send_req, hs, orKeep] using hb
  | doAbort =>
      refine ⟨"", ?_⟩
      rw [String.append_empty]
      show (RequestHandle.abort h).response_buffer = some b
      unfold RequestHandle.abort
      split
      · exact hb
      · simpa using hb
  | notify n =>
      show ∃ t, (orKeep h (applyNotification h n)).response_buffer = some (b ++ t)
      unfold applyNotification
      by_cases hg : h.state = .Done ∨ h.aborted = true
      · rw [if_pos (by simpa using hg)]
        exact ⟨"", by rw [String.append_empty]; exact hb⟩
      · rw [if_neg (by simpa using hg)]
        cases n with
        | HeadersArrived s =>
            refine ⟨"", ?_⟩
            rw [String.append_empty]
            by_cases hs : h.state = .Opened
            · simpa [hs, orKeep] using hb
            · simpa [hs, orKeep] using hb
        | DataChunk bytes =>
            cases hs : h.state with
            | HeadersReceived =>
                exact ⟨bytes, by simp [orKeep, hb]⟩
            | Loading =>
                exact ⟨bytes, by simp [orKeep, hs, hb]⟩
            | Unsent => exact ⟨"", by rw [String.append_empty]; simpa [orKeep] using hb⟩
            | Opened => exact ⟨"", by rw [String.append_empty]; simpa [orKeep] using hb⟩
            | Done => exact ⟨"", by rw [String.append_empty]; simpa [orKeep] using hb⟩
        | Complete =>
            refine ⟨"", ?_⟩
            rw [String.append_empty]
            by_cases hs : h.state = .HeadersReceived ∨ h.state = .Loading
            · simpa [hs, orKeep] using hb
            · simpa [hs, orKeep] using hb
        | Failed reason =>
            exact ⟨"", by rw [String.append_empty]; simpa [orKeep] using hb⟩
        | Aborted =>
            exact ⟨"", by rw [String.append_empty]; simpa [orKeep] using hb⟩

/-- On a handle satisfying the lifecycle invariant, a set status is
preserved verbatim by every step. -/
theorem status_some_step (h : RequestHandle) (hi : LifecycleInv h)
    (s0 : Nat) (hs0 : h.status = some s0) (s : Step) :
    (applyStep h s).status = some s0 := by
  have hnu : h.state ≠ .Unsent := by
    intro he
    rw [hi.2 (Or.inl he)] at hs0
    exact Option.noConfusion hs0
  have hno : h.state ≠ .Opened := by
    intro he
    rw [hi.2 (Or.inr he)] at hs0
    exact Option.noConfusion hs0
  cases s with
  | doOpen m u =>
      simpa [applyStep, open_req, hnu, orKeep] using hs0
  | doSend b =>
      by_cases hs : h.state = .Opened
      · exact absurd hs hno
      · simpa [applyStep, send_req, hs, orKeep] using hs0
  | doAbort =>
      show (RequestHandle.abort h).status = some s0
      unfold RequestHandle.abort
      split
      · exact hs0
      · simp [hs0]
  | notify n =>
      show (orKeep h (applyNotification h n)).status = some s0
      unfold applyNotification
      by_cases hg : h.state = .Done ∨ h.aborted = true
      · rw [if_pos (by simpa using hg)]; exact hs0
      · rw [if_neg (by simpa using hg)]
        cases n with
        | HeadersArrived s =>
            simpa [hno, orKeep] using hs0
        | DataChunk bytes =>
            cases hs : h.state with
            | HeadersReceived => simpa [orKeep] using hs0
            | Loading => simpa [orKeep, hs] using hs0
            | Unsent => exact absurd hs hnu
            | Opened => exact absurd hs hno
            | Done => simpa [orKeep] using hs0
        | Complete =>
            by_cases hs : h.state = .HeadersReceived ∨ h.state = .Loading
            · simpa [hs, orKeep] using hs0
            · simpa [hs, orKeep] using hs0
        | Failed reason => simpa [orKeep] using hs0
        | Aborted => simpa [orKeep] using hs0

/-! ### Claim theorems -/

/-- C1: abort in any non-Done state forces the state to Done; the status is
left untouched when already set and reset to the sentinel 0 when headers had
not yet been received; abort on a Done handle is a no-op; and after abort no
notification accumulates any further body. -/
theorem abort_postcondition (h : RequestHandle) :
    (h.state ≠ .Done → h.abort.state = .Done ∧ h.abort.aborted = true) ∧
    (∀ s, h.status = some s → h.abort.status = some s) ∧
    (h.status = none → h.state ≠ .Done → h.abort.status = some 0) ∧
    (h.state = .Done → h.abort = h) ∧
    (∀ n, applyNotification h.abort n = .ok h.abort) := by
  refine ⟨?_, ?_, ?_, ?_, ?_⟩
  · intro hne
    unfold RequestHandle.abort
    rw [if_neg hne]
    exact ⟨rfl, rfl⟩
  · intro s hs
    unfold RequestHandle.abort
    split
    · exact hs
    · simp [hs]
  · intro h0 hne
    unfold RequestHandle.abort
    rw [if_neg hne]
    simp [h0]
  · intro hd
    unfold RequestHandle.abort
    rw [if_pos hd]
  · intro n
    exact applyNotification_done h.abort n (abort_state_done h)

theorem abort_postcondition_witness :
    (RequestHandle.abort { initHandle with state := .HeadersReceived, status := some 404 }).status
      = some 404 ∧
    (RequestHandle.abort initHandle).status = some 0 ∧
    (RequestHandle.abort initHandle).state = .Done ∧
    RequestHandle.abort { initHandle with state := .Done } = { initHandle with state := .Done } :=
  ⟨(abort_postcondition { initHandle with state := .HeadersReceived, status := some 404 }).2.1
      404 rfl,
   (abort_postcondition initHandle).2.2.1 rfl (by decide),
   ((abort_postcondition initHandle).1 (by decide)).1,
   (abort_postcondition { initHandle with state := .Done }).2.2.2.1 rfl⟩

/-- C2: `can_transition` is true exactly for Unsent→Opened,
Opened→HeadersReceived, HeadersReceived→Loading, Loading→Done,
HeadersReceived→Done, and any-state→Done when aborting, and every other
requested transition fails with `InvalidTransition`. -/
theorem can_transition_characterization :
    (∀ (f t : ReadyState) (a : Bool), can_transition f t a = true ↔
      ((f = .Unsent ∧ t = .Opened) ∨ (f = .Opened ∧ t = .HeadersReceived) ∨
       (f = .HeadersReceived ∧ t = .Loading) ∨ (f = .Loading ∧ t = .Done) ∨
       (f = .HeadersReceived ∧ t = .Done) ∨ (a = true ∧ t = .Done))) ∧
    (∀ (h : RequestHandle) (t : ReadyState) (a : Bool),
      can_transition h.state t a = false →
      request_transition h t a = .error .InvalidTransition) := by
  constructor
  · intro f t a
    cases f <;> cases t <;> cases a <;> decide
  · intro h t a hf
    simp [request_transition, hf]

theorem can_transition_characterization_witness :
    can_transition .Unsent .Opened false = true ∧
    request_transition initHandle .Loading false = .error .InvalidTransition :=
  ⟨(can_transition_characterization.1 .Unsent .Opened false).mpr (Or.inl ⟨rfl, rfl⟩),
   can_transition_characterization.2 initHandle .Loading false rfl⟩

/-- C3: along every sequence of operations and adapter notifications the
lifecycle rank of `ready_state()` never decreases; the abort path is the
direct jump to Done from any non-Done state. -/
theorem ready_state_monotone :
    (∀ (h : RequestHandle) (steps : List Step),
      h.ready_state.rank ≤ (runSteps h steps).ready_state.rank) ∧
    (∀ h : RequestHandle, h.ready_state ≠ .Done → h.abort.ready_state = .Done) := by
  constructor
  · intro h steps
    exact rank_runSteps steps h
  · intro h _
    exact abort_state_done h

theorem ready_state_monotone_witness :
    initHandle.ready_state.rank ≤
      (runSteps initHandle [Step.doAbort]).ready_state.rank ∧
    (RequestHandle.abort initHandle).ready_state = .Done :=
  ⟨ready_state_monotone.1 initHandle [Step.doAbort],
   ready_state_monotone.2 initHandle (by decide)⟩

/-- C4: after `abort()` the state is Done immediately and permanently: no
subsequent adapter notification sequence changes the handle (state or
response buffer) at all. -/
theorem abort_permanent (h : RequestHandle) :
    h.abort.ready_state = .Done ∧
    ∀ ns : List Notification, runNotifs h.abort ns = h.abort :=
  ⟨abort_state_done h, fun ns => runNotifs_done h.abort ns (abort_state_done h)⟩

/-- C5 counterexample: Scenario C of the spec — `open`, `send`, then
`abort()` before any notification.  Headers were never received, yet
`status()` is `some 0` (the documented sentinel), not `none` as the claim
states. -/
theorem status_pre_header_abort_counterexample :
    (runSteps initHandle
      [Step.doOpen "GET" "http://x/a", Step.doSend none, Step.doAbort]).status = some 0 ∧
    (runSteps initHandle
      [Step.doOpen "GET" "http://x/a", Step.doSend none, Step.doAbort]).status ≠ none := by
  have h1 : (runSteps initHandle
      [Step.doOpen "GET" "http://x/a", Step.doSend none, Step.doAbort]).status = some 0 := rfl
  exact ⟨h1, by rw [h1]; exact fun he => Option.noConfusion he⟩

/-- C5 (amended): on every reachable handle, `status()` is `none` in every
state before HeadersReceived; an abort before headers were received sets it
to the sentinel `some 0` (not `none`); and from HeadersReceived onward it is
the transport-reported status: `HeadersArrived{s}` sets it to `some s` and
every later step preserves a set status verbatim. -/
theorem status_lifecycle (h : RequestHandle) (hr : Reachable h) :
    ((h.state = .Unsent ∨ h.state = .Opened) → h.status = none) ∧
    ((h.state = .Unsent ∨ h.state = .Opened) → h.abort.status = some 0) ∧
    (∀ s0, h.status = some s0 → ∀ s : Step, (applyStep h s).status = some s0) ∧
    (∀ st, h.state = .Opened →
      (applyStep h (Step.notify (.HeadersArrived st))).status = some st) := by
  have hi := reachable_inv hr
  refine ⟨hi.2, ?_, ?_, ?_⟩
  · intro hpre
    have hn : h.status = none := hi.2 hpre
    have hne : h.state ≠ .Done := by
      rcases hpre with he | he <;> simp [he]
    unfold RequestHandle.abort
    rw [if_neg hne]
    simp [hn]
  · intro s0 hs0 s
    exact status_some_step h hi s0 hs0 s
  · intro st hop
    have hab : h.aborted = false := by
      cases hA : h.aborted with
      | false => rfl
      | true => exact absurd (hi.1 hA) (by simp [hop])
    show (orKeep h (applyNotification h (.HeadersArrived st))).status = some st
    unfold applyNotification
    rw [if_neg (by simp [hop, hab])]
    simp [hop, orKeep]

theorem status_lifecycle_witness :
    initHandle.status = none ∧ (RequestHandle.abort initHandle).status = some 0 :=
  ⟨(status_lifecycle initHandle Reachable.init).1 (Or.inl rfl),
   (status_lifecycle initHandle Reachable.init).2.1 (Or.inl rfl)⟩

/-- C6: `response_text()` is `none` until the first `DataChunk` is applied;
an applied `DataChunk` makes it `some` (possibly empty); once `some`, every
step extends the content on the right (prefix-extension), and a Done handle
is frozen; the absent body `none` is distinct from the empty body
`some ""`. -/
theorem response_text_lifecycle :
    (∀ (h : RequestHandle) (steps : List Step), h.response_text = none →
      (∀ b, Step.notify (.DataChunk b) ∉ steps) →
      (runSteps h steps).response_text = none) ∧
    (∀ (h : RequestHandle) (bytes : String),
      (h.state = .HeadersReceived ∨ h.state = .Loading) → h.aborted = false →
      ((applyStep h (Step.notify (.DataChunk bytes))).response_text).isSome = true) ∧
    (∀ (h : RequestHandle) (b : String), h.response_text = some b →
      ∀ s : Step, ∃ t, (applyStep h s).response_text = some (b ++ t)) ∧
    (∀ (h : RequestHandle) (s : Step), h.state = .Done → applyStep h s = h) ∧
    (some "" ≠ (none : Option String)) := by
  refine ⟨?_, ?_, ?_, applyStep_done, by simp⟩
  · intro h steps hb hnc
    exact buffer_none_run steps h hb hnc
  · intro h bytes hs hab
    have hne : h.state ≠ .Done := by
      rcases hs with he | he <;> simp [he]
    show ((orKeep h (applyNotification h (.DataChunk bytes))).response_text).isSome = true
    unfold applyNotification
    rw [if_neg (by simp [hne, hab])]
    rcases hs with he | he <;> simp [he, orKeep, RequestHandle.response_text]
  · intro h b hb s
    exact buffer_extend_step h b hb s

theorem response_text_lifecycle_witness :
    (runSteps initHandle [Step.doOpen "GET" "u", Step.doSend none]).response_text = none ∧
    (∃ t, (applyStep { initHandle with state := .Loading, response_buffer := some "hi" }
      (Step.notify (.DataChunk "!"))).response_text = some ("hi" ++ t)) :=
  ⟨response_text_lifecycle.1 initHandle [Step.doOpen "GET" "u", Step.doSend none] rfl
      (by intro b; simp),
   response_text_lifecycle.2.2.1 { initHandle with state := .Loading, response_buffer := some "hi" }
      "hi" rfl (Step.notify (.DataChunk "!"))⟩

/-- C7: `open` is valid only in `Unsent` and fails with `AlreadyOpened` in
every other state, so a second `open` after a successful one always fails
with `AlreadyOpened`; `send` before `open` (state `Unsent`) always fails
with `NotOpened`. -/
theorem open_send_errors :
    (∀ (h : RequestHandle) (m u : String), h.state ≠ .Unsent →
      open_req h m u = .error .AlreadyOpened) ∧
    (∀ (h h1 : RequestHandle) (m u m1 u1 : String), open_req h m u = .ok h1 →
      open_req h1 m1 u1 = .error .AlreadyOpened) ∧
    (∀ (h : RequestHandle) (b : Option String), h.state = .Unsent →
      send_req h b = .error .NotOpened) := by
  refine ⟨?_, ?_, ?_⟩
  · intro h m u hs
    simp [open_req, hs]
  · intro h h1 m u m1 u1 hok
    have hst : h1.state = .Opened := by
      unfold open_req at hok
      by_cases hs : h.state = .Unsent
      · rw [if_pos hs] at hok
        by_cases hv : m = "" ∨ u = ""
        · rw [if_pos hv] at hok
          exact Except.noConfusion hok
        · rw [if_neg hv] at hok
          cases hok
          rfl
      · rw [if_neg hs] at hok
        exact Except.noConfusion hok
    simp [open_req, hst]
  · intro h b hs
    simp [send_req, hs]

theorem open_send_errors_witness :
    open_req (RequestHandle.abort initHandle) "GET" "u" = .error .AlreadyOpened ∧
    open_req { initHandle with state := .Opened, method := some "GET", url := some "u" }
      "POST" "v" = .error .AlreadyOpened ∧
    send_req initHandle none = .error .NotOpened :=
  ⟨open_send_errors.1 (RequestHandle.abort initHandle) "GET" "u" (by decide),
   open_send_errors.2.1 initHandle
      { initHandle with state := .Opened, method := some "GET", url := some "u" }
      "GET" "u" "POST" "v" rfl,
   open_send_errors.2.2 initHandle none rfl⟩

/-- C8: `abort` is idempotent — a second `abort` leaves the handle (state,
status, response buffer, every field) exactly as the first left it. -/
theorem abort_idempotent (h : RequestHandle) : h.abort.abort = h.abort := by
  have hfix : ∀ g : RequestHandle, g.state = .Done → g.abort = g := by
    intro g hg
    unfold RequestHandle.abort
    rw [if_pos hg]
  exact hfix h.abort (abort_state_done h)

/-- C9: the integer-code mapping of `ready_state` is exhaustive over 0..=4
(0→Unsent, 1→Opened, 2→HeadersReceived, 3→Loading, 4→Done); any other code
hits the fatal branch (`none`, the `unreachable!` of the source) instead of
returning a state; under the adapter contract (codes 0..=4 only) the fatal
branch is unreachable. -/
theorem ready_state_code_mapping :
    ready_state_of_code 0 = some .Unsent ∧
    ready_state_of_code 1 = some .Opened ∧
    ready_state_of_code 2 = some .HeadersReceived ∧
    ready_state_of_code 3 = some .Loading ∧
    ready_state_of_code 4 = some .Done ∧
    (∀ c : Nat, 4 < c → ready_state_of_code c = none) ∧
    (∀ c : Nat, c ≤ 4 → (ready_state_of_code c).isSome = true) := by
  refine ⟨rfl, rfl, rfl, rfl, rfl, ?_, ?_⟩
  · intro c hc
    unfold ready_state_of_code
    rw [if_neg (by omega), if_neg (by omega), if_neg (by omega),
        if_neg (by omega), if_neg (by omega)]
  · intro c hc
    interval_cases c <;> rfl

theorem ready_state_code_mapping_witness :
    ready_state_of_code 7 = none ∧ (ready_state_of_code 2).isSome = true :=
  ⟨ready_state_code_mapping.2.2.2.2.2.1 7 (by decide),
   ready_state_code_mapping.2.2.2.2.2.2 2 (by decide)⟩

/-- C10: the binding always requests asynchronous mode — the third (async)
argument passed to the underlying transport `open` is `true` for every
method and url. -/
theorem open_always_async (method url : String) :
    (xhr_open_args method url).async = true := rfl
